import Mathlib

/-!
Verification development for the vincere-oauth-proxy service.

The definitions below are a shallow embedding of the TypeScript source:

* src/security/validators.ts: tenant-host, path, state and code validation;
* src/infra/keyvault.ts: secret naming and the key-value secret store;
* src/oauth/service.ts: the per-tenant id-token cache and refresh logic
  (getIdTokenForTenant, storeRefreshToken, clearIdTokenCache);
* src/oauth/routes.ts: the OAuth callback handler ordering of validations;
* src/proxy/routes.ts: the proxy route validation ordering;
* src/infra/axiosClient.ts: the retry/backoff configuration.

Strings are Lean strings; the JavaScript Map and the Key Vault are modelled
as association lists with insert-or-replace update; Date.now() instants are
naturals (milliseconds); the upstream token endpoint is an oracle passed as a
function argument.  Asynchronous execution of concurrent getIdTokenForTenant
calls is modelled by a small-step scheduler whose atomic steps are the
synchronous segments between the await points of the source.
-/

namespace VincereProxy

/-! ## Association-list key-value maps (JavaScript Map, Key Vault contents) -/

def kvGet {α : Type} : List (String × α) → String → Option α
  | [], _ => none
  | (k1, v) :: rest, k => if k1 = k then some v else kvGet rest k

def kvSet {α : Type} : List (String × α) → String → α → List (String × α)
  | [], k, v => [(k, v)]
  | (k1, v1) :: rest, k, v =>
      if k1 = k then (k, v) :: rest else (k1, v1) :: kvSet rest k v

def kvDel {α : Type} (kv : List (String × α)) (k : String) : List (String × α) :=
  kv.filter (fun p => p.1 ≠ k)

theorem kvGet_kvSet {α : Type} (kv : List (String × α)) (k k2 : String) (v : α) :
    kvGet (kvSet kv k v) k2 = if k = k2 then some v else kvGet kv k2 := by
  induction kv with
  | nil => by_cases h : k = k2 <;> simp [kvGet, kvSet, h]
  | cons p rest ih =>
      obtain ⟨k1, v1⟩ := p
      by_cases h1 : k1 = k
      · by_cases h2 : k = k2 <;> simp [kvGet, kvSet, h1, h2]
      · by_cases h2 : k1 = k2
        · subst h2
          have hk : ¬ k = k1 := fun h => h1 h.symm
          simp [kvGet, kvSet, h1, hk]
        · simp [kvGet, kvSet, h1, h2, ih]

theorem kvGet_kvSet_self {α : Type} (kv : List (String × α)) (k : String) (v : α) :
    kvGet (kvSet kv k v) k = some v := by
  simp [kvGet_kvSet]

theorem kvGet_kvSet_ne {α : Type} (kv : List (String × α)) (k k2 : String) (v : α)
    (h : k ≠ k2) : kvGet (kvSet kv k v) k2 = kvGet kv k2 := by
  simp [kvGet_kvSet, h]

theorem kvGet_kvDel {α : Type} (kv : List (String × α)) (k k2 : String) :
    kvGet (kvDel kv k) k2 = if k = k2 then none else kvGet kv k2 := by
  induction kv with
  | nil => by_cases h : k = k2 <;> simp [kvGet, kvDel, h]
  | cons p rest ih =>
      obtain ⟨k1, v1⟩ := p
      by_cases h1 : k1 = k
      · subst h1
        by_cases h2 : k1 = k2
        · subst h2; simpa [kvGet, kvDel] using ih
        · simpa [kvGet, kvDel, h2] using ih
      · by_cases h2 : k1 = k2
        · subst h2
          have hk : ¬ k = k1 := fun h => h1 h.symm
          simp [kvGet, kvDel, h1, hk, kvGet]
        · simpa [kvGet, kvDel, h1, h2] using ih

/-! ## Character classes and list-of-character utilities -/

/-- Whitespace characters removed by the JavaScript String.trim on the
ASCII range (space, tab, line feed, carriage return, vertical tab, form feed). -/
def isWsChar (c : Char) : Bool :=
  c = ' ' || c = '\t' || c = '\n' || c = '\r' || c = '\x0b' || c = '\x0c'

/-- Leading-whitespace removal (String.trimStart). -/
def trimLeft (l : List Char) : List Char := l.dropWhile isWsChar

/-- Trailing-whitespace removal (String.trimEnd), via reversal. -/
def trimRight (l : List Char) : List Char :=
  ((l.reverse).dropWhile isWsChar).reverse

/-- JavaScript String.trim. -/
def trimChars (l : List Char) : List Char := trimRight (trimLeft l)

/-- Decides whether the first list is an initial segment of the second. -/
def isPre : List Char → List Char → Bool
  | [], _ => true
  | _ :: _, [] => false
  | a :: as, b :: bs => a = b && isPre as bs

/-- JavaScript String.includes: does the needle occur contiguously in the hay? -/
def containsSub (needle : List Char) : List Char → Bool
  | [] => needle.isEmpty
  | c :: rest => isPre needle (c :: rest) || containsSub needle rest

theorem isPre_iff (n l : List Char) : isPre n l = true ↔ ∃ t, l = n ++ t := by
  induction n generalizing l with
  | nil => simp [isPre]
  | cons a as ih =>
      cases l with
      | nil => simp [isPre]
      | cons b bs =>
          simp only [isPre, Bool.and_eq_true, decide_eq_true_eq, ih, List.cons_append,
            List.cons.injEq]
          constructor
          · rintro ⟨rfl, t, rfl⟩; exact ⟨t, rfl, rfl⟩
          · rintro ⟨t, rfl, rfl⟩; exact ⟨rfl, t, rfl⟩

theorem containsSub_iff (n l : List Char) :
    containsSub n l = true ↔ ∃ p t, l = p ++ n ++ t := by
  induction l with
  | nil =>
      simp only [containsSub, List.isEmpty_iff]
      constructor
      · rintro rfl; exact ⟨[], [], rfl⟩
      · rintro ⟨p, t, h⟩
        rcases List.append_eq_nil.mp (List.append_eq_nil.mp h.symm).1 with ⟨_, h2⟩
        exact h2
  | cons c rest ih =>
      simp only [containsSub, Bool.or_eq_true, isPre_iff, ih]
      constructor
      · rintro (⟨t, h⟩ | ⟨p, t, h⟩)
        · exact ⟨[], t, by simpa using h⟩
        · exact ⟨c :: p, t, by simp [h]⟩
      · rintro ⟨p, t, h⟩
        cases p with
        | nil => exact Or.inl ⟨t, by simpa using h⟩
        | cons d ds =>
            right
            refine ⟨ds, t, ?_⟩
            simpa using (List.cons.injEq ..).mp h |>.2

theorem head?_mem {α : Type} {l : List α} {c : α} (h : l.head? = some c) : c ∈ l := by
  cases l with
  | nil => simp at h
  | cons a as =>
      simp only [List.head?_cons, Option.some.injEq] at h
      subst h
      simp

theorem containsSub_trimLeft (n l : List Char) (hne : n ≠ [])
    (hh : ∀ c, n.head? = some c → isWsChar c = false)
    (h : containsSub n l = true) : containsSub n (trimLeft l) = true := by
  induction l with
  | nil => simpa [trimLeft] using h
  | cons c rest ih =>
      by_cases hw : isWsChar c
      · have hrest : containsSub n rest = true := by
          rcases (containsSub_iff n (c :: rest)).mp h with ⟨p, t, hp⟩
          cases p with
          | nil =>
              cases n with
              | nil => exact absurd rfl hne
              | cons a as =>
                  simp only [List.nil_append, List.cons_append, List.cons.injEq] at hp
                  obtain ⟨hca, _⟩ := hp
                  have hfa := hh a (by simp)
                  rw [hca] at hw
                  simp [hfa] at hw
          | cons d ds =>
              simp only [List.cons_append, List.cons.injEq, List.append_assoc] at hp
              refine (containsSub_iff n rest).mpr ⟨ds, t, ?_⟩
              rw [List.append_assoc]
              exact hp.2
        have := ih hrest
        simpa [trimLeft, List.dropWhile, hw] using this
      · simpa [trimLeft, List.dropWhile, hw] using h

theorem containsSub_reverse (n l : List Char) :
    containsSub n.reverse l.reverse = containsSub n l := by
  have h1 : containsSub n.reverse l.reverse = true ↔ containsSub n l = true := by
    simp only [containsSub_iff]
    constructor
    · rintro ⟨p, t, h⟩
      refine ⟨t.reverse, p.reverse, ?_⟩
      have := congrArg List.reverse h
      simpa [List.reverse_append, List.append_assoc] using this
    · rintro ⟨p, t, h⟩
      refine ⟨t.reverse, p.reverse, ?_⟩
      simp [h, List.reverse_append, List.append_assoc]
  cases hb : containsSub n l
  · cases hb2 : containsSub n.reverse l.reverse
    · rfl
    · exact absurd (h1.mp hb2) (by simp [hb])
  · exact h1.mpr hb

theorem containsSub_trimChars (n l : List Char) (hne : n ≠ [])
    (hall : ∀ c ∈ n, isWsChar c = false)
    (h : containsSub n l = true) : containsSub n (trimChars l) = true := by
  have hh : ∀ c, n.head? = some c → isWsChar c = false :=
    fun c hc => hall c (head?_mem hc)
  have h1 : containsSub n (trimLeft l) = true := containsSub_trimLeft n l hne hh h
  have h2 : containsSub n.reverse (trimLeft l).reverse = true := by
    rw [containsSub_reverse]; exact h1
  have hne2 : n.reverse ≠ [] := by simpa using hne
  have hh2 : ∀ c, n.reverse.head? = some c → isWsChar c = false :=
    fun c hc => hall c (List.mem_reverse.mp (head?_mem hc))
  have h3 := containsSub_trimLeft n.reverse (trimLeft l).reverse hne2 hh2 h2
  have h4 : containsSub n.reverse (trimRight (trimLeft l)).reverse = true := by
    simpa [trimRight, trimLeft] using h3
  unfold trimChars
  rw [← containsSub_reverse n (trimRight (trimLeft l))]
  exact h4

theorem trimLeft_of_head_not_ws (c : Char) (l : List Char) (h : isWsChar c = false) :
    trimLeft (c :: l) = c :: l := by
  simp [trimLeft, List.dropWhile, h]

theorem dropWhile_append_singleton (a : Char) (l : List Char) (h : isWsChar a = false) :
    (l ++ [a]).dropWhile isWsChar = l.dropWhile isWsChar ++ [a] := by
  induction l with
  | nil => simp [List.dropWhile, h]
  | cons c rest ih =>
      by_cases hw : isWsChar c <;> simp [List.dropWhile, hw, ih]

theorem trimChars_cons_not_ws (c : Char) (l : List Char) (h : isWsChar c = false) :
    ∃ t, trimChars (c :: l) = c :: t := by
  rw [trimChars, trimLeft_of_head_not_ws c l h]
  refine ⟨(l.reverse.dropWhile isWsChar).reverse, ?_⟩
  have : (c :: l).reverse = l.reverse ++ [c] := by simp
  rw [trimRight, this, dropWhile_append_singleton c l.reverse h]
  simp

/-- JavaScript String.split on a single separator character; keeps empty parts,
so the result always has one more part than there are separators. -/
def splitOnChar (sep : Char) : List Char → List (List Char)
  | [] => [[]]
  | c :: cs =>
      if c = sep then [] :: splitOnChar sep cs
      else
        match splitOnChar sep cs with
        | [] => [[c]]
        | p :: ps => (c :: p) :: ps

theorem splitOnChar_no_sep (sep : Char) (l : List Char) (h : sep ∉ l) :
    splitOnChar sep l = [l] := by
  induction l with
  | nil => rfl
  | cons c cs ih =>
      have hc : ¬ c = sep := fun hcs => h (hcs ▸ List.mem_cons_self c cs)
      have hcs : sep ∉ cs := fun hm => h (List.mem_cons_of_mem c hm)
      simp [splitOnChar, hc, ih hcs]

theorem splitOnChar_two (sep : Char) (a b : List Char) (ha : sep ∉ a) (hb : sep ∉ b) :
    splitOnChar sep (a ++ sep :: b) = [a, b] := by
  induction a with
  | nil => simp [splitOnChar, splitOnChar_no_sep sep b hb]
  | cons c cs ih =>
      have hc : ¬ c = sep := fun hcs => ha (hcs ▸ List.mem_cons_self c cs)
      have hcs : sep ∉ cs := fun hm => ha (List.mem_cons_of_mem c hm)
      simp [splitOnChar, hc, ih hcs]

/-! ## src/security/validators.ts -/

/-- Result record returned by every validator (interface ValidationResult). -/
structure ValidationResult where
  valid : Bool
  error : Option String
deriving DecidableEq

/-- One character of the body of the host pattern: the class [a-z0-9-] under
the case-insensitive flag, hence also upper-case letters. -/
def isHostBodyChar (c : Char) : Bool :=
  (decide ('a' ≤ c) && decide (c ≤ 'z')) ||
  (decide ('A' ≤ c) && decide (c ≤ 'Z')) ||
  (decide ('0' ≤ c) && decide (c ≤ '9')) || c = '-'

/-- The anchored test of VINCERE_HOST_PATTERN, the regular expression
matching one or more body characters followed by the literal suffix
.vincere.io, case-insensitively. -/
def vincereHostTest (l : List Char) : Bool :=
  let low := l.map Char.toLower
  let suffChars := ".vincere.io".data
  decide (suffChars.length < low.length) &&
  decide (low.drop (low.length - suffChars.length) = suffChars) &&
  (low.take (low.length - suffChars.length)).all isHostBodyChar

/-- SSRF blocklist of internal and metadata hostnames (SSRF_BLOCKLIST). -/
def ssrfBlocklist : List String :=
  ["localhost", "127.0.0.1", "0.0.0.0", "::1", "169.254.169.254",
   "metadata.google.internal"]

def listStarts (p l : List Char) : Bool := isPre p l

/-- The PRIVATE_IP_RANGES tests: anchored patterns for 10.x, 172.16-31.x,
192.168.x, 169.254.x and the fc00:/fe80: IPv6 ranges, evaluated on the
already lower-cased host string. -/
def privateIpTest (l : List Char) : Bool :=
  listStarts "10.".data l ||
  (List.range' 16 16).any (fun n => listStarts ("172." ++ toString n ++ ".").data l) ||
  listStarts "192.168.".data l ||
  listStarts "169.254.".data l ||
  listStarts "fc00:".data l ||
  listStarts "fe80:".data l

/-- validateTenantHost: trims and lower-cases the input, checks length bounds,
the Vincere host pattern, the SSRF blocklist and the private address ranges. -/
def validateTenantHost (tenantHost : String) : ValidationResult :=
  if tenantHost = "" then ⟨false, some "Tenant host is required"⟩
  else
    let normalized := String.mk ((trimChars tenantHost.data).map Char.toLower)
    if normalized.data.length = 0 || 253 < normalized.data.length then
      ⟨false, some "Invalid tenant host length"⟩
    else if !(vincereHostTest normalized.data) then
      ⟨false, some "Invalid tenant host format"⟩
    else if ssrfBlocklist.contains normalized then
      ⟨false, some "Invalid tenant host"⟩
    else if privateIpTest normalized.data then
      ⟨false, some "Invalid tenant host"⟩
    else ⟨true, none⟩

/-- validatePath: rejects traversal sequences, double slashes, null bytes,
absolute paths and full URLs, after trimming whitespace. -/
def validatePath (path : String) : ValidationResult :=
  if path = "" then ⟨false, some "Path is required"⟩
  else
    let trimmed := trimChars path.data
    if containsSub "..".data trimmed || containsSub "//".data trimmed then
      ⟨false, some "Invalid path"⟩
    else if containsSub "\x00".data trimmed then
      ⟨false, some "Invalid path"⟩
    else if listStarts "/".data trimmed || listStarts "http://".data trimmed ||
        listStarts "https://".data trimmed then
      ⟨false, some "Invalid path format"⟩
    else ⟨true, none⟩

/-- One character of the nonce class [a-zA-Z0-9-_]. -/
def isNonceChar (c : Char) : Bool :=
  (decide ('a' ≤ c) && decide (c ≤ 'z')) ||
  (decide ('A' ≤ c) && decide (c ≤ 'Z')) ||
  (decide ('0' ≤ c) && decide (c ≤ '9')) || c = '-' || c = '_'

/-- validateOAuthState: the state must split on the colon into exactly a nonce
part and a tenant-host part; the nonce must be 16 to 128 characters from the
nonce alphabet, and the host part must pass validateTenantHost. -/
def validateOAuthState (state : String) : ValidationResult :=
  if state = "" then ⟨false, some "State parameter is required"⟩
  else
    match splitOnChar ':' state.data with
    | [nonce, tenantHost] =>
        if nonce.isEmpty || nonce.length < 16 || 128 < nonce.length ||
            !(nonce.all isNonceChar) then
          ⟨false, some "Invalid state"⟩
        else
          let hv := validateTenantHost (String.mk tenantHost)
          if hv.valid then ⟨true, none⟩ else hv
    | _ => ⟨false, some "Invalid state format"⟩

/-- One character of the authorization-code class [a-zA-Z0-9-_=+/]. -/
def isCodeChar (c : Char) : Bool :=
  (decide ('a' ≤ c) && decide (c ≤ 'z')) ||
  (decide ('A' ≤ c) && decide (c ≤ 'Z')) ||
  (decide ('0' ≤ c) && decide (c ≤ '9')) ||
  c = '-' || c = '_' || c = '=' || c = '+' || c = '/'

/-- validateAuthCode: length between 10 and 1024 and restricted alphabet. -/
def validateAuthCode (code : String) : ValidationResult :=
  if code = "" then ⟨false, some "Authorization code is required"⟩
  else if code.data.length < 10 || 1024 < code.data.length then
    ⟨false, some "Invalid code length"⟩
  else if !(code.data.all isCodeChar) then
    ⟨false, some "Invalid code format"⟩
  else ⟨true, none⟩

/-! ## src/infra/keyvault.ts: secret naming -/

inductive SecretType
  | refreshToken
  | apiKey
deriving DecidableEq

/-- The literal secret-type segment used in the secret name. -/
def SecretType.toStr : SecretType → String
  | refreshToken => "refresh_token"
  | apiKey => "api_key"

/-- One character kept untouched by the cleaning regular expression
(the class [^a-zA-Z0-9-] is replaced by a dash), written in the order of
the source character class. -/
def isSecretNameChar (c : Char) : Bool :=
  (decide ('a' ≤ c) && decide (c ≤ 'z')) ||
  (decide ('A' ≤ c) && decide (c ≤ 'Z')) ||
  (decide ('0' ≤ c) && decide (c ≤ '9')) || c = '-'

/-- The cleaned tenant string: every character outside the allowed class is
replaced by a dash. -/
def cleanTenant (tenant : String) : String :=
  String.mk (tenant.data.map (fun c => if isSecretNameChar c then c else '-'))

/-- buildSecretName from src/infra/keyvault.ts. -/
def buildSecretName (tenant : String) (secretType : SecretType) : String :=
  "vincere/" ++ cleanTenant tenant ++ "/" ++ secretType.toStr

/-! ## src/oauth/service.ts: the token lifecycle -/

/-- One entry of the in-memory id-token cache (interface CachedIdToken);
expiresAt is an absolute instant in milliseconds. -/
structure CachedIdToken where
  token : String
  expiresAt : Nat
deriving DecidableEq

/-- The part of a successful token-endpoint refresh response that the service
uses: the mandatory id_token and the optional rotated refresh_token.
refreshTokens rejects responses with a non-200 status or a missing id_token,
so those collapse into the failure outcome below. -/
structure TokenResponse where
  idToken : String
  refreshTokenNew : Option String
deriving DecidableEq

/-- Outcome of one call of the upstream refresh endpoint as seen by
refreshTokens: either a usable token payload, or a raised error (non-200
status, missing id_token, or a transport failure after the retry budget). -/
inductive ExchangeOutcome
  | success (tokens : TokenResponse)
  | failure
deriving DecidableEq

/-- The state owned by the service module: the module-level idTokenCache Map
and the Key Vault secret contents reachable through getSecretOrNull and
setSecret (keyed by the full secret name). -/
structure ProxyState where
  idTokenCache : List (String × CachedIdToken)
  secrets : List (String × String)
deriving DecidableEq

/-- Errors surfaced by getIdTokenForTenant. -/
inductive OAuthError
  | notAuthorized
  | refreshFailed
deriving DecidableEq

/-- Result of one getIdTokenForTenant invocation. -/
inductive CallOutcome
  | ok (token : String)
  | error (e : OAuthError)
deriving DecidableEq

/-- Result, successor state and number of upstream refresh calls performed by
one invocation of getIdTokenForTenant. -/
structure CallResult where
  result : CallOutcome
  state : ProxyState
  upstreamCalls : Nat
deriving DecidableEq

/-- The cache probe at the top of getIdTokenForTenant: returns the cached
token when an entry exists and cached.expiresAt > now. -/
def cacheFresh (s : ProxyState) (tenantHost : String) (now : Nat) : Option String :=
  match kvGet s.idTokenCache tenantHost with
  | some cached => if now < cached.expiresAt then some cached.token else none
  | none => none

/-- The refresh path of getIdTokenForTenant: read the refresh token from the
vault (absence raises the not-authorized error before any upstream call),
exchange it, cache the new id token with expiry now plus the configured
cache window, and write back a rotated refresh token when one was returned.
The exchange oracle stands for one POST of refreshTokens. -/
def refreshIdToken (cacheSeconds : Nat) (exchange : String → ExchangeOutcome)
    (tenantHost : String) (now : Nat) (s : ProxyState) : CallResult :=
  let secretName := buildSecretName tenantHost SecretType.refreshToken
  match kvGet s.secrets secretName with
  | none => ⟨CallOutcome.error OAuthError.notAuthorized, s, 0⟩
  | some refreshTok =>
      match exchange refreshTok with
      | ExchangeOutcome.failure => ⟨CallOutcome.error OAuthError.refreshFailed, s, 1⟩
      | ExchangeOutcome.success tokens =>
          let expiresAt := now + cacheSeconds * 1000
          let s1 : ProxyState :=
            { s with idTokenCache :=
                kvSet s.idTokenCache tenantHost ⟨tokens.idToken, expiresAt⟩ }
          let s2 : ProxyState :=
            match tokens.refreshTokenNew with
            | some newTok => { s1 with secrets := kvSet s1.secrets secretName newTok }
            | none => s1
          ⟨CallOutcome.ok tokens.idToken, s2, 1⟩

/-- getIdTokenForTenant: serve a fresh cached token without any I/O,
otherwise run the refresh path. now is the Date.now() instant captured at
entry; cacheSeconds is config.security.idTokenCacheSeconds (50 by default). -/
def getIdTokenForTenant (cacheSeconds : Nat) (exchange : String → ExchangeOutcome)
    (tenantHost : String) (now : Nat) (s : ProxyState) : CallResult :=
  match cacheFresh s tenantHost now with
  | some tok => ⟨CallOutcome.ok tok, s, 0⟩
  | none => refreshIdToken cacheSeconds exchange tenantHost now s

/-- storeRefreshToken: unconditionally overwrite the vault entry. -/
def storeRefreshToken (tenantHost refreshTok : String) (s : ProxyState) : ProxyState :=
  { s with secrets :=
      kvSet s.secrets (buildSecretName tenantHost SecretType.refreshToken) refreshTok }

/-- clearIdTokenCache: drop one cache entry, or all of them; the vault is
never touched. -/
def clearIdTokenCache (tenantHost : Option String) (s : ProxyState) : ProxyState :=
  match tenantHost with
  | some t => { s with idTokenCache := kvDel s.idTokenCache t }
  | none => { s with idTokenCache := [] }

/-- The state produced by a successful refresh: the cache entry is replaced
and, when the provider rotated the refresh token, the vault entry too. -/
def refreshedState (s : ProxyState) (t : String) (tokens : TokenResponse)
    (expiresAt : Nat) : ProxyState :=
  let s1 : ProxyState :=
    { s with idTokenCache := kvSet s.idTokenCache t ⟨tokens.idToken, expiresAt⟩ }
  match tokens.refreshTokenNew with
  | some newTok =>
      { s1 with
        secrets := kvSet s1.secrets (buildSecretName t SecretType.refreshToken) newTok }
  | none => s1

theorem getIdToken_eq_of_fresh {s : ProxyState} {t tok : String} {now : Nat}
    (cacheSeconds : Nat) (exchange : String → ExchangeOutcome)
    (hc : cacheFresh s t now = some tok) :
    getIdTokenForTenant cacheSeconds exchange t now s = ⟨CallOutcome.ok tok, s, 0⟩ := by
  unfold getIdTokenForTenant
  rw [hc]

theorem getIdToken_eq_notAuthorized {s : ProxyState} {t : String} {now : Nat}
    (cacheSeconds : Nat) (exchange : String → ExchangeOutcome)
    (hc : cacheFresh s t now = none)
    (hs : kvGet s.secrets (buildSecretName t SecretType.refreshToken) = none) :
    getIdTokenForTenant cacheSeconds exchange t now s =
      ⟨CallOutcome.error OAuthError.notAuthorized, s, 0⟩ := by
  unfold getIdTokenForTenant refreshIdToken
  rw [hc]
  dsimp only
  rw [hs]

theorem getIdToken_eq_failed {s : ProxyState} {t rt : String} {now : Nat}
    (cacheSeconds : Nat) {exchange : String → ExchangeOutcome}
    (hc : cacheFresh s t now = none)
    (hs : kvGet s.secrets (buildSecretName t SecretType.refreshToken) = some rt)
    (hex : exchange rt = ExchangeOutcome.failure) :
    getIdTokenForTenant cacheSeconds exchange t now s =
      ⟨CallOutcome.error OAuthError.refreshFailed, s, 1⟩ := by
  unfold getIdTokenForTenant refreshIdToken
  rw [hc]
  dsimp only
  rw [hs]
  dsimp only
  rw [hex]

theorem getIdToken_eq_success {s : ProxyState} {t rt : String} {now : Nat}
    {tokens : TokenResponse} (cacheSeconds : Nat) {exchange : String → ExchangeOutcome}
    (hc : cacheFresh s t now = none)
    (hs : kvGet s.secrets (buildSecretName t SecretType.refreshToken) = some rt)
    (hex : exchange rt = ExchangeOutcome.success tokens) :
    getIdTokenForTenant cacheSeconds exchange t now s =
      ⟨CallOutcome.ok tokens.idToken,
       refreshedState s t tokens (now + cacheSeconds * 1000), 1⟩ := by
  unfold getIdTokenForTenant refreshIdToken refreshedState
  rw [hc]
  dsimp only
  rw [hs]
  dsimp only
  rw [hex]

/-- States reachable from the empty initial state through the operations the
service module exposes: storing a refresh token, a getIdTokenForTenant call
with any oracle and instant, and the cache-clear operation. -/
inductive Reachable : ProxyState → Prop
  | init : Reachable ⟨[], []⟩
  | store (t v : String) {s : ProxyState} :
      Reachable s → Reachable (storeRefreshToken t v s)
  | getToken (cacheSeconds : Nat) (exchange : String → ExchangeOutcome)
      (t : String) (now : Nat) {s : ProxyState} :
      Reachable s → Reachable (getIdTokenForTenant cacheSeconds exchange t now s).state
  | clear (t : Option String) {s : ProxyState} :
      Reachable s → Reachable (clearIdTokenCache t s)

/-- Invariant tying the cache to the vault: every tenant with a cache entry
has a stored refresh token. -/
def cacheBackedBySecret (s : ProxyState) : Prop :=
  ∀ t e, kvGet s.idTokenCache t = some e →
    (kvGet s.secrets (buildSecretName t SecretType.refreshToken)).isSome = true

theorem kvGet_kvSet_isSome_mono {α : Type} (kv : List (String × α)) (k k2 : String)
    (v : α) (h : (kvGet kv k2).isSome = true) :
    (kvGet (kvSet kv k v) k2).isSome = true := by
  rw [kvGet_kvSet]
  by_cases hk : k = k2 <;> simp [hk, h]

theorem reachable_cacheBackedBySecret (s : ProxyState) (h : Reachable s) :
    cacheBackedBySecret s := by
  induction h with
  | init => intro t e he; simp [kvGet] at he
  | store t v _ ih =>
      intro t2 e he
      exact kvGet_kvSet_isSome_mono _ _ _ _ (ih t2 e he)
  | getToken cacheSeconds exchange t now _ ih =>
      intro t2 e he
      rename_i s0 _
      cases hc : cacheFresh s0 t now with
      | some tok =>
          rw [getIdToken_eq_of_fresh cacheSeconds exchange hc] at he ⊢
          exact ih t2 e he
      | none =>
          cases hs : kvGet s0.secrets (buildSecretName t SecretType.refreshToken) with
          | none =>
              rw [getIdToken_eq_notAuthorized cacheSeconds exchange hc hs] at he ⊢
              exact ih t2 e he
          | some rt =>
              cases hex : exchange rt with
              | failure =>
                  rw [getIdToken_eq_failed cacheSeconds hc hs hex] at he ⊢
                  exact ih t2 e he
              | success tokens =>
                  rw [getIdToken_eq_success cacheSeconds hc hs hex] at he ⊢
                  unfold refreshedState at he ⊢
                  cases hrot : tokens.refreshTokenNew with
                  | some newTok =>
                      rw [hrot] at he
                      dsimp only at he ⊢
                      by_cases ht : t = t2
                      · subst ht
                        exact kvGet_kvSet_isSome_mono _ _ _ _ (by simp [hs])
                      · have he2 : kvGet s0.idTokenCache t2 = some e := by
                          simpa [kvGet_kvSet_ne _ _ _ _ ht] using he
                        exact kvGet_kvSet_isSome_mono _ _ _ _ (ih t2 e he2)
                  | none =>
                      rw [hrot] at he
                      dsimp only at he ⊢
                      by_cases ht : t = t2
                      · subst ht; simp [hs]
                      · have he2 : kvGet s0.idTokenCache t2 = some e := by
                          simpa [kvGet_kvSet_ne _ _ _ _ ht] using he
                        exact ih t2 e he2
  | clear t _ ih =>
      intro t2 e he
      rename_i s0 _
      cases t with
      | some t1 =>
          simp only [clearIdTokenCache] at he
          rw [kvGet_kvDel] at he
          by_cases ht : t1 = t2
          · simp [ht] at he
          · rw [if_neg ht] at he
            exact ih t2 e he
      | none => simp [clearIdTokenCache, kvGet] at he

theorem refreshedState_cache (s : ProxyState) (t : String) (tokens : TokenResponse)
    (expiresAt : Nat) :
    (refreshedState s t tokens expiresAt).idTokenCache =
      kvSet s.idTokenCache t ⟨tokens.idToken, expiresAt⟩ := by
  obtain ⟨idT, rtN⟩ := tokens
  cases rtN <;> rfl

theorem refreshedState_secrets_some (s : ProxyState) (t : String)
    (tokens : TokenResponse) (expiresAt : Nat) (r2 : String)
    (h : tokens.refreshTokenNew = some r2) :
    (refreshedState s t tokens expiresAt).secrets =
      kvSet s.secrets (buildSecretName t SecretType.refreshToken) r2 := by
  obtain ⟨idT, rtN⟩ := tokens
  cases rtN with
  | none => simp at h
  | some r =>
      simp only [Option.some.injEq] at h
      subst h
      rfl

theorem refreshedState_secrets_none (s : ProxyState) (t : String)
    (tokens : TokenResponse) (expiresAt : Nat)
    (h : tokens.refreshTokenNew = none) :
    (refreshedState s t tokens expiresAt).secrets = s.secrets := by
  obtain ⟨idT, rtN⟩ := tokens
  cases rtN with
  | none => rfl
  | some r => simp at h

/-- Claim C2: a getIdTokenForTenant call at instant t0 that misses the cache
and refreshes successfully returns the new token with exactly one upstream
call, caches it with expiry t0 plus the configured window (milliseconds),
the resulting entry is fresh at an instant n exactly when n is before that
expiry, and any second call before the expiry is served from the cache with
zero further upstream calls and an unchanged state, so the pair of calls
performs exactly one upstream refresh. -/
theorem getIdToken_cache_window
    (cacheSeconds : Nat) (exchange : String → ExchangeOutcome) (t rt : String)
    (tokens : TokenResponse) (t0 : Nat) (s : ProxyState)
    (hstale : cacheFresh s t t0 = none)
    (hsec : kvGet s.secrets (buildSecretName t SecretType.refreshToken) = some rt)
    (hex : exchange rt = ExchangeOutcome.success tokens) :
    (getIdTokenForTenant cacheSeconds exchange t t0 s).result =
      CallOutcome.ok tokens.idToken ∧
    (getIdTokenForTenant cacheSeconds exchange t t0 s).upstreamCalls = 1 ∧
    kvGet (getIdTokenForTenant cacheSeconds exchange t t0 s).state.idTokenCache t =
      some ⟨tokens.idToken, t0 + cacheSeconds * 1000⟩ ∧
    (∀ n : Nat,
      (cacheFresh (getIdTokenForTenant cacheSeconds exchange t t0 s).state t n).isSome
        = true ↔ n < t0 + cacheSeconds * 1000) ∧
    ∀ t1 : Nat, t1 < t0 + cacheSeconds * 1000 →
      getIdTokenForTenant cacheSeconds exchange t t1
          (getIdTokenForTenant cacheSeconds exchange t t0 s).state =
        ⟨CallOutcome.ok tokens.idToken,
         (getIdTokenForTenant cacheSeconds exchange t t0 s).state, 0⟩ := by
  have heq := getIdToken_eq_success cacheSeconds hstale hsec hex
  rw [heq]
  dsimp only
  have hcache : kvGet (refreshedState s t tokens (t0 + cacheSeconds * 1000)).idTokenCache
      t = some ⟨tokens.idToken, t0 + cacheSeconds * 1000⟩ := by
    rw [refreshedState_cache]
    exact kvGet_kvSet_self _ _ _
  refine ⟨rfl, rfl, hcache, ?_, ?_⟩
  · intro n
    unfold cacheFresh
    rw [hcache]
    by_cases hlt : n < t0 + cacheSeconds * 1000 <;> simp [hlt]
  · intro t1 h1
    have hfresh : cacheFresh (refreshedState s t tokens (t0 + cacheSeconds * 1000)) t t1
        = some tokens.idToken := by
      unfold cacheFresh
      rw [hcache]
      simp [h1]
    exact getIdToken_eq_of_fresh cacheSeconds exchange hfresh

def w2State : ProxyState :=
  ⟨[], [(buildSecretName "acme.vincere.io" SecretType.refreshToken, "R0")]⟩

def w2Ex : String → ExchangeOutcome :=
  fun _ => ExchangeOutcome.success ⟨"T1", some "R1"⟩

/-- Witness for claim C2 at a concrete tenant, store and oracle: the first
call refreshes once and a second call 40 seconds later is served from the
cache unchanged. -/
theorem getIdToken_cache_window_witness :
    (getIdTokenForTenant 50 w2Ex "acme.vincere.io" 0 w2State).upstreamCalls = 1 ∧
    getIdTokenForTenant 50 w2Ex "acme.vincere.io" 40000
        (getIdTokenForTenant 50 w2Ex "acme.vincere.io" 0 w2State).state =
      ⟨CallOutcome.ok "T1",
       (getIdTokenForTenant 50 w2Ex "acme.vincere.io" 0 w2State).state, 0⟩ := by
  have h := getIdToken_cache_window 50 w2Ex "acme.vincere.io" "R0" ⟨"T1", some "R1"⟩ 0
    w2State rfl rfl rfl
  exact ⟨h.2.1, h.2.2.2.2 40000 (by decide)⟩

/-- Claim C3: in every reachable state whose vault has no refresh token for
the tenant, getIdTokenForTenant fails with the not-authorized error, performs
zero upstream calls, and leaves the state unchanged.  Reachability matters:
the reachability invariant rules out a fresh cache entry without a stored
refresh token, so the call cannot be served from the cache either. -/
theorem getIdToken_notAuthorized_no_upstream
    (s : ProxyState) (hreach : Reachable s) (cacheSeconds : Nat)
    (exchange : String → ExchangeOutcome) (t : String) (now : Nat)
    (hsec : kvGet s.secrets (buildSecretName t SecretType.refreshToken) = none) :
    getIdTokenForTenant cacheSeconds exchange t now s =
      ⟨CallOutcome.error OAuthError.notAuthorized, s, 0⟩ := by
  have hinv := reachable_cacheBackedBySecret s hreach
  have hcache : kvGet s.idTokenCache t = none := by
    cases hcc : kvGet s.idTokenCache t with
    | none => rfl
    | some e =>
        have := hinv t e hcc
        rw [hsec] at this
        simp at this
  have hfresh : cacheFresh s t now = none := by
    unfold cacheFresh
    rw [hcache]
  exact getIdToken_eq_notAuthorized cacheSeconds exchange hfresh hsec

/-- Witness for claim C3 at the initial empty state. -/
theorem getIdToken_notAuthorized_no_upstream_witness :
    getIdTokenForTenant 50 (fun _ => ExchangeOutcome.failure) "acme.vincere.io" 0
        ⟨[], []⟩ =
      ⟨CallOutcome.error OAuthError.notAuthorized, ⟨[], []⟩, 0⟩ :=
  getIdToken_notAuthorized_no_upstream ⟨[], []⟩ Reachable.init 50
    (fun _ => ExchangeOutcome.failure) "acme.vincere.io" 0 rfl

/-- Claim C4: after storeRefreshToken t v, a getIdTokenForTenant call whose
refresh succeeds returns the new id token, and the vault then holds the
rotated refresh value when the exchange returned one (the write happens
inside the call, before it returns its result) and still holds v when the
exchange returned none. -/
theorem storeRefresh_rotation_roundtrip
    (cacheSeconds : Nat) (exchange : String → ExchangeOutcome) (t v : String)
    (tokens : TokenResponse) (now : Nat) (s : ProxyState)
    (hstale : cacheFresh (storeRefreshToken t v s) t now = none)
    (hex : exchange v = ExchangeOutcome.success tokens) :
    (getIdTokenForTenant cacheSeconds exchange t now (storeRefreshToken t v s)).result
      = CallOutcome.ok tokens.idToken ∧
    (∀ r2, tokens.refreshTokenNew = some r2 →
      kvGet (getIdTokenForTenant cacheSeconds exchange t now
          (storeRefreshToken t v s)).state.secrets
        (buildSecretName t SecretType.refreshToken) = some r2) ∧
    (tokens.refreshTokenNew = none →
      kvGet (getIdTokenForTenant cacheSeconds exchange t now
          (storeRefreshToken t v s)).state.secrets
        (buildSecretName t SecretType.refreshToken) = some v) := by
  have hsec : kvGet (storeRefreshToken t v s).secrets
      (buildSecretName t SecretType.refreshToken) = some v := by
    unfold storeRefreshToken
    exact kvGet_kvSet_self _ _ _
  have heq := getIdToken_eq_success cacheSeconds hstale hsec hex
  rw [heq]
  dsimp only
  refine ⟨rfl, ?_, ?_⟩
  · intro r2 hr2
    rw [refreshedState_secrets_some _ _ _ _ _ hr2]
    exact kvGet_kvSet_self _ _ _
  · intro hr
    rw [refreshedState_secrets_none _ _ _ _ hr]
    exact hsec

/-- Witness for claim C4: storing V0 and refreshing with an oracle that
rotates to R1 leaves R1 in the vault. -/
theorem storeRefresh_rotation_roundtrip_witness :
    kvGet (getIdTokenForTenant 50 (fun _ => ExchangeOutcome.success ⟨"T1", some "R1"⟩)
        "acme.vincere.io" 0
        (storeRefreshToken "acme.vincere.io" "V0" ⟨[], []⟩)).state.secrets
      (buildSecretName "acme.vincere.io" SecretType.refreshToken) = some "R1" := by
  have h := storeRefresh_rotation_roundtrip 50
    (fun _ => ExchangeOutcome.success ⟨"T1", some "R1"⟩) "acme.vincere.io" "V0"
    ⟨"T1", some "R1"⟩ 0 ⟨[], []⟩ rfl rfl
  exact h.2.1 "R1" rfl

/-! ## Claim C8: the secret naming scheme against the specification text -/

/-- Sanitisation as worded in the specification: every character outside the
class A to Z, a to z, 0 to 9 and dash is replaced by a dash, character by
character. -/
def sanitizeSpec : List Char → List Char
  | [] => []
  | c :: cs =>
      (if (decide ('A' ≤ c) && decide (c ≤ 'Z')) ||
          (decide ('a' ≤ c) && decide (c ≤ 'z')) ||
          (decide ('0' ≤ c) && decide (c ≤ '9')) || c = '-'
       then c else '-') :: sanitizeSpec cs

/-- The naming scheme as worded in the specification: namespace, slash,
sanitised tenant, slash, secret type, with the fixed namespace vincere. -/
def secretNameSpec (tenant : String) (secretType : SecretType) : String :=
  "vincere" ++ "/" ++ String.mk (sanitizeSpec tenant.data) ++ "/" ++ secretType.toStr

theorem if_or_swap_head (a b c d : Bool) (x y : Char) :
    (if (a || b || c || d) = true then x else y) =
      (if (b || a || c || d) = true then x else y) := by
  cases a <;> cases b <;> cases c <;> cases d <;> rfl

theorem sanitizeSpec_eq_map (l : List Char) :
    sanitizeSpec l = l.map (fun c => if isSecretNameChar c then c else '-') := by
  induction l with
  | nil => rfl
  | cons c cs ih =>
      simp only [sanitizeSpec, List.map_cons, ih]
      congr 1
      simp only [isSecretNameChar]
      exact if_or_swap_head _ _ _ _ _ _

/-- Claim C8: for every tenant string and secret type, the secret name built
by the implementation equals the name prescribed by the specification:
the fixed namespace vincere, a slash, the tenant with every character outside
letters, digits and dash replaced by a dash, a slash, and the secret type
segment (refresh_token or api_key). -/
theorem buildSecretName_matches_spec (t : String) (ty : SecretType) :
    buildSecretName t ty = secretNameSpec t ty := by
  unfold buildSecretName secretNameSpec cleanTenant
  rw [sanitizeSpec_eq_map]
  rfl

/-- Claim C9: the two tenant hosts ACME.vincere.io and acme.vincere.io differ
only in letter case; both pass validateTenantHost (which lower-cases only for
checking and returns no normalised value), yet as used downstream they are
different cache keys (an id token cached under the upper-case key is not
found under the lower-case key) and different vault names, so one logical
tenant holds two independent credential states. -/
theorem tenant_case_split_downstream :
    (validateTenantHost "ACME.vincere.io").valid = true ∧
    (validateTenantHost "acme.vincere.io").valid = true ∧
    ("ACME.vincere.io" : String) ≠ "acme.vincere.io" ∧
    kvGet (kvSet ([] : List (String × CachedIdToken)) "ACME.vincere.io" ⟨"T1", 50000⟩)
      "acme.vincere.io" = none ∧
    cacheFresh ⟨kvSet [] "ACME.vincere.io" ⟨"T1", 50000⟩, []⟩ "acme.vincere.io" 0
      = none ∧
    buildSecretName "ACME.vincere.io" SecretType.refreshToken ≠
      buildSecretName "acme.vincere.io" SecretType.refreshToken := by
  refine ⟨by decide, by decide, by decide, by decide, by decide, by decide⟩

/-! ## src/infra/axiosClient.ts: the retry and backoff behaviour

The shared axios client used both by the token exchange in
src/oauth/service.ts and by the request forwarding in
src/proxy/vincereClient.ts is created with validateStatus: () => true and
then configured with axios-retry: three retries, exponential delay with up
to one second of random jitter, and a retry condition selecting network
errors and the status codes 429, 502, 503, 504.

validateStatus: () => true makes axios resolve every HTTP response,
whatever its status, and axios-retry intercepts only rejected promises; so
a response carrying one of the listed status codes never reaches
retryCondition, and the status-code branch of retryCondition is dead code.
Only response-less transport failures are ever retried.  The model keeps
both layers separate: retryCondition as written in the source, and
reachesRetryLayer for which outcomes the retry interceptor sees at all. -/

/-- The configured maximum number of retries (retries: 3). -/
def axiosRetries : Nat := 3

/-- retryDelay: two to the power of the retry count, in seconds, expressed in
milliseconds, plus the random jitter Math.random() * 1000, modelled as an
arbitrary natural below 1000. -/
def retryDelayMs (retryCount jitter : Nat) : Nat := 2 ^ retryCount * 1000 + jitter

/-- What one attempt of the configured client produces: a resolved response
carrying a status code (validateStatus: () => true resolves every status),
or a rejected promise from a transport failure, which carries no response. -/
inductive AttemptOutcome
  | response (status : Nat)
  | networkError
deriving DecidableEq

/-- retryCondition exactly as written in the source: retry when the error
has no response (network error) or when the response status is 429, 502,
503 or 504. -/
def retryCondition : AttemptOutcome → Bool
  | AttemptOutcome.networkError => true
  | AttemptOutcome.response s => s == 429 || s == 502 || s == 503 || s == 504

/-- Which outcomes the axios-retry interceptor sees at all: only rejected
promises, and with validateStatus: () => true every response resolves, so
only transport failures reach it. -/
def reachesRetryLayer : AttemptOutcome → Bool
  | AttemptOutcome.response _ => false
  | AttemptOutcome.networkError => true

/-- Whether the program actually retries an outcome: the outcome must reach
the retry interceptor and satisfy retryCondition there. -/
def programRetries (o : AttemptOutcome) : Bool :=
  reachesRetryLayer o && retryCondition o

/-- The attempt loop of the configured client: run one attempt; while the
program retries the outcome and retries remain, run another.  outcomes k is
the outcome of attempt number k; the result is the surfaced outcome and the
total number of attempts performed. -/
def attemptLoop (outcomes : Nat → AttemptOutcome) :
    Nat → Nat → AttemptOutcome × Nat
  | attemptIdx, 0 => (outcomes attemptIdx, attemptIdx + 1)
  | attemptIdx, remaining + 1 =>
      if programRetries (outcomes attemptIdx) then
        attemptLoop outcomes (attemptIdx + 1) remaining
      else (outcomes attemptIdx, attemptIdx + 1)

/-- One upstream call through the configured client: up to axiosRetries
retries after the first attempt. -/
def runWithRetry (outcomes : Nat → AttemptOutcome) : AttemptOutcome × Nat :=
  attemptLoop outcomes 0 axiosRetries

/-- Claim C5, which the code fails: a call answered with HTTP 429, 502, 503
or 504 is surfaced after exactly one attempt with zero retries, although
retryCondition as written selects exactly those codes - the branch is
unreachable because validateStatus: () => true resolves every response
before the retry interceptor can see it.  Only the network-error half of
the claim holds: a permanently failing transport call uses all four
attempts (one plus three retries) before the failure is surfaced. -/
theorem retry_status_codes_not_retried :
    runWithRetry (fun _ => AttemptOutcome.response 429) =
      (AttemptOutcome.response 429, 1) ∧
    runWithRetry (fun _ => AttemptOutcome.response 502) =
      (AttemptOutcome.response 502, 1) ∧
    runWithRetry (fun _ => AttemptOutcome.response 503) =
      (AttemptOutcome.response 503, 1) ∧
    runWithRetry (fun _ => AttemptOutcome.response 504) =
      (AttemptOutcome.response 504, 1) ∧
    retryCondition (AttemptOutcome.response 429) = true ∧
    reachesRetryLayer (AttemptOutcome.response 429) = false ∧
    runWithRetry (fun _ => AttemptOutcome.networkError) =
      (AttemptOutcome.networkError, 4) := by
  refine ⟨by decide, by decide, by decide, by decide, by decide, by decide, by decide⟩

/-! ## src/proxy/routes.ts: validation before any I/O -/

theorem string_ne_empty_of_data_ne (s : String) (h : s.data ≠ []) : s ≠ "" := by
  intro he
  apply h
  rw [he]

/-- Outcome of the proxy route handler up to the point where callVincereApi
would be invoked. -/
inductive ProxyOutcome
  | invalidHost (err : Option String)
  | invalidPath (err : Option String)
  | forwarded (tenantHost path : String)
deriving DecidableEq

/-- The validation phase of the proxy route handler: tenant host first, path
second; only when both pass does the handler invoke callVincereApi (the only
operation that reads the secret store or contacts the upstream host).  The
second component counts callVincereApi invocations. -/
def proxyHandler (tenantHost path : String) : ProxyOutcome × Nat :=
  let hv := validateTenantHost tenantHost
  if hv.valid then
    let pv := validatePath path
    if pv.valid then (ProxyOutcome.forwarded tenantHost path, 1)
    else (ProxyOutcome.invalidPath pv.error, 0)
  else (ProxyOutcome.invalidHost hv.error, 0)

theorem validatePath_invalid_of_bad (path : String)
    (hbad : containsSub "..".data path.data = true ∨
            containsSub "//".data path.data = true ∨
            containsSub "\x00".data path.data = true ∨
            listStarts "/".data path.data = true ∨
            listStarts "http://".data path.data = true ∨
            listStarts "https://".data path.data = true) :
    (validatePath path).valid = false := by
  have hne : path.data ≠ [] := by
    rcases hbad with h | h | h | h | h | h <;>
      { intro hnil; rw [hnil] at h; exact absurd h (by decide) }
  have hpne : path ≠ "" := string_ne_empty_of_data_ne path hne
  have hbad2 : containsSub "..".data (trimChars path.data) = true ∨
      containsSub "//".data (trimChars path.data) = true ∨
      containsSub "\x00".data (trimChars path.data) = true ∨
      listStarts "/".data (trimChars path.data) = true := by
    have hsub : ∀ n : List Char, n ≠ [] → (∀ c ∈ n, isWsChar c = false) →
        containsSub n path.data = true → containsSub n (trimChars path.data) = true :=
      fun n h1 h2 h3 => containsSub_trimChars n path.data h1 h2 h3
    have hurl : ∀ pre : List Char, path.data = pre ++ "//".data ++ [] ++ path.data.drop
        (pre.length + 2) → True := fun _ _ => trivial
    rcases hbad with h | h | h | h | h | h
    · exact Or.inl (hsub _ (by decide) (by decide) h)
    · exact Or.inr (Or.inl (hsub _ (by decide) (by decide) h))
    · exact Or.inr (Or.inr (Or.inl (hsub _ (by decide) (by decide) h)))
    · rcases (isPre_iff _ _).mp h with ⟨t, ht⟩
      have hslash : isWsChar '/' = false := by decide
      rcases trimChars_cons_not_ws '/' t hslash with ⟨t2, ht2⟩
      refine Or.inr (Or.inr (Or.inr ?_))
      have : trimChars path.data = '/' :: t2 := by
        rw [ht]
        simpa using ht2
      rw [this]
      simp [listStarts, isPre]
    · rcases (isPre_iff _ _).mp h with ⟨t, ht⟩
      refine Or.inr (Or.inl (hsub _ (by decide) (by decide) ?_))
      refine (containsSub_iff _ _).mpr ⟨"http:".data, t, ?_⟩
      rw [ht]
      rfl
    · rcases (isPre_iff _ _).mp h with ⟨t, ht⟩
      refine Or.inr (Or.inl (hsub _ (by decide) (by decide) ?_))
      refine (containsSub_iff _ _).mpr ⟨"https:".data, t, ?_⟩
      rw [ht]
      rfl
  unfold validatePath
  rw [if_neg hpne]
  dsimp only
  by_cases h1 : (containsSub "..".data (trimChars path.data) ||
      containsSub "//".data (trimChars path.data)) = true
  · rw [if_pos h1]
  · rw [if_neg h1]
    by_cases h2 : containsSub "\x00".data (trimChars path.data) = true
    · rw [if_pos h2]
    · rw [if_neg h2]
      by_cases h3 : (listStarts "/".data (trimChars path.data) ||
          listStarts "http://".data (trimChars path.data) ||
          listStarts "https://".data (trimChars path.data)) = true
      · rw [if_pos h3]
      · exfalso
        rcases hbad2 with h | h | h | h
        · exact h1 (by simp [h])
        · exact h1 (by simp [h])
        · exact h2 h
        · exact h3 (by simp [h])

/-- Claim C6: for a tenant that passes validation and a path containing a
traversal sequence, a double slash or a null byte, or an absolute path or a
full URL, the proxy route fails path validation and performs zero
callVincereApi invocations, hence no secret-store read and no upstream
call. -/
theorem forward_invalid_path_no_io (tenantHost path : String)
    (hv : (validateTenantHost tenantHost).valid = true)
    (hbad : containsSub "..".data path.data = true ∨
            containsSub "//".data path.data = true ∨
            containsSub "\x00".data path.data = true ∨
            listStarts "/".data path.data = true ∨
            listStarts "http://".data path.data = true ∨
            listStarts "https://".data path.data = true) :
    proxyHandler tenantHost path =
      (ProxyOutcome.invalidPath (validatePath path).error, 0) := by
  have hpv := validatePath_invalid_of_bad path hbad
  unfold proxyHandler
  dsimp only
  rw [if_pos hv, if_neg (by simp [hpv])]

/-- Witness for claim C6: the path from the specification example. -/
theorem forward_invalid_path_no_io_witness :
    proxyHandler "acme.vincere.io" "../secret" =
      (ProxyOutcome.invalidPath (some "Invalid path"), 0) := by
  have h := forward_invalid_path_no_io "acme.vincere.io" "../secret" (by decide)
    (Or.inl (by decide))
  exact h.trans (by decide)

/-! ## The OAuth callback route: ordering of validations -/

/-- Outcome of the callback route handler up to the point where
exchangeCodeForTokens would be invoked. -/
inductive CallbackOutcome
  | providerError
  | invalidCode (err : Option String)
  | invalidState (err : Option String)
  | exchanged (tenantHost : String)
deriving DecidableEq

/-- The validation phase of the OAuth callback handler: a provider error
short-circuits; then the authorization code is validated, then the state;
only when both pass is exchangeCodeForTokens invoked on the tenant extracted
from the state.  The second component counts exchangeCodeForTokens
invocations (the only network call of the handler). -/
def callbackHandler (oauthErr : Option String) (code state : String) :
    CallbackOutcome × Nat :=
  match oauthErr with
  | some _ => (CallbackOutcome.providerError, 0)
  | none =>
      let cv := validateAuthCode code
      if cv.valid then
        let sv := validateOAuthState state
        if sv.valid then
          (CallbackOutcome.exchanged
            (String.mk ((splitOnChar ':' state.data).getD 1 [])), 1)
        else (CallbackOutcome.invalidState sv.error, 0)
      else (CallbackOutcome.invalidCode cv.error, 0)

/-- Claim C7: for any authorization code accepted by code validation and a
state of the form nonce colon host whose nonce is shorter than 16 characters,
the callback fails with the invalid-state error and performs zero
exchangeCodeForTokens invocations. -/
theorem callback_short_nonce_no_exchange (code state : String)
    (nonce host : List Char)
    (hcode : (validateAuthCode code).valid = true)
    (hlen : nonce.length < 16)
    (hnc : ':' ∉ nonce) (hhc : ':' ∉ host)
    (hstate : state.data = nonce ++ ':' :: host) :
    callbackHandler none code state =
      (CallbackOutcome.invalidState (some "Invalid state"), 0) := by
  have hne : state ≠ "" := by
    apply string_ne_empty_of_data_ne
    rw [hstate]
    simp
  have hsplit : splitOnChar ':' state.data = [nonce, host] := by
    rw [hstate]
    exact splitOnChar_two ':' nonce host hnc hhc
  have hsv : validateOAuthState state = ⟨false, some "Invalid state"⟩ := by
    unfold validateOAuthState
    rw [if_neg hne, hsplit]
    dsimp only
    rw [if_pos (by simp [hlen])]
  unfold callbackHandler
  dsimp only
  rw [if_pos hcode, hsv]
  dsimp only
  rw [if_neg (by simp)]

/-- Witness for claim C7 at the state from the specification example. -/
theorem callback_short_nonce_no_exchange_witness :
    callbackHandler none "validcode123" "shortnonce:tenant.example.io" =
      (CallbackOutcome.invalidState (some "Invalid state"), 0) :=
  callback_short_nonce_no_exchange "validcode123" "shortnonce:tenant.example.io"
    "shortnonce".data "tenant.example.io".data (by decide) (by decide)
    (by decide) (by decide) (by decide)

/-- Claim C10: the callback validates the authorization code before the
state: whenever both fail validation, the reported failure is the code error,
not the state error, and no exchange happens. -/
theorem callback_code_error_wins (code state : String)
    (hcode : (validateAuthCode code).valid = false)
    (_hstate : (validateOAuthState state).valid = false) :
    callbackHandler none code state =
      (CallbackOutcome.invalidCode (validateAuthCode code).error, 0) := by
  unfold callbackHandler
  dsimp only
  rw [if_neg (by simp [hcode])]

/-- Witness for claim C10: both the code and the state are invalid and the
code error is reported. -/
theorem callback_code_error_wins_witness :
    callbackHandler none "bad" "bad" =
      (CallbackOutcome.invalidCode (some "Invalid code length"), 0) := by
  have h := callback_code_error_wins "bad" "bad" (by decide) (by decide)
  exact h.trans (by decide)

/-! ## Claim C1: concurrent getIdTokenForTenant calls

getIdTokenForTenant is an async function with no lock, mutex or
request-coalescing of any kind: the synchronous segment at its top checks
the module-level cache and then awaits getSecretOrNull; the continuation
awaits refreshTokens; the next continuation writes the cache, optionally
awaits setSecret, and returns.  Under the Node.js event loop, segments of
different in-flight calls interleave at these await points.  The model
below makes each segment an atomic step of a task and lets an explicit
schedule choose which task steps next.  The upstream oracle is indexed by a
global call counter so that distinct upstream calls may return distinct
tokens, as a real token endpoint does. -/

/-- Program counter of one in-flight getIdTokenForTenant call: the await
points of the source delimit the segments. -/
inductive TaskPc
  | start
  | readSecret
  | doExchange (refreshTok : String)
  | writeBack (tokens : TokenResponse)
  | finished
deriving DecidableEq

/-- One in-flight call: its argument, the Date.now() instant captured at
entry, its program counter, the number of upstream exchange calls it has
made, and its result once finished. -/
structure TaskState where
  tenantHost : String
  now : Nat
  pc : TaskPc
  calls : Nat
  result : Option CallOutcome
deriving DecidableEq

/-- The shared world: the module state, plus a global counter of upstream
exchange calls indexing the oracle. -/
structure ConcState where
  shared : ProxyState
  exchangeCount : Nat
  tasks : List TaskState
deriving DecidableEq

/-- A freshly spawned getIdTokenForTenant call. -/
def spawn (tenantHost : String) (now : Nat) : TaskState :=
  ⟨tenantHost, now, TaskPc.start, 0, none⟩

/-- One atomic segment of one call, faithful to the source order: cache
check; secret read (failing with the not-authorized error when absent);
upstream exchange; cache write plus optional rotated-secret write and
return. -/
def stepTask (cacheSeconds : Nat) (exchange : Nat → String → ExchangeOutcome)
    (s : ProxyState) (cnt : Nat) (t : TaskState) :
    ProxyState × Nat × TaskState :=
  match t.pc with
  | TaskPc.start =>
      match cacheFresh s t.tenantHost t.now with
      | some tok =>
          (s, cnt, { t with pc := TaskPc.finished, result := some (CallOutcome.ok tok) })
      | none => (s, cnt, { t with pc := TaskPc.readSecret })
  | TaskPc.readSecret =>
      match kvGet s.secrets (buildSecretName t.tenantHost SecretType.refreshToken) with
      | none =>
          (s, cnt,
            { t with
              pc := TaskPc.finished
              result := some (CallOutcome.error OAuthError.notAuthorized) })
      | some rt => (s, cnt, { t with pc := TaskPc.doExchange rt })
  | TaskPc.doExchange rt =>
      match exchange cnt rt with
      | ExchangeOutcome.failure =>
          (s, cnt + 1,
            { t with
              pc := TaskPc.finished
              calls := t.calls + 1
              result := some (CallOutcome.error OAuthError.refreshFailed) })
      | ExchangeOutcome.success tokens =>
          (s, cnt + 1, { t with pc := TaskPc.writeBack tokens, calls := t.calls + 1 })
  | TaskPc.writeBack tokens =>
      (refreshedState s t.tenantHost tokens (t.now + cacheSeconds * 1000), cnt,
       { t with pc := TaskPc.finished, result := some (CallOutcome.ok tokens.idToken) })
  | TaskPc.finished => (s, cnt, t)

/-- Let task number i take its next segment. -/
def schedStep (cacheSeconds : Nat) (exchange : Nat → String → ExchangeOutcome)
    (st : ConcState) (i : Nat) : ConcState :=
  match st.tasks.get? i with
  | none => st
  | some t =>
      match stepTask cacheSeconds exchange st.shared st.exchangeCount t with
      | (s2, c2, t2) => ⟨s2, c2, st.tasks.set i t2⟩

/-- Run a schedule: the list names, in order, which task steps next. -/
def runSched (cacheSeconds : Nat) (exchange : Nat → String → ExchangeOutcome) :
    ConcState → List Nat → ConcState
  | st, [] => st
  | st, i :: rest => runSched cacheSeconds exchange (schedStep cacheSeconds exchange st i) rest

/-- Total number of upstream exchange calls made by all tasks. -/
def totalCalls (st : ConcState) : Nat := (st.tasks.map TaskState.calls).sum

/-- Two concurrent getIdTokenForTenant calls for the same tenant launched
against the same starting state. -/
def twoCallerRun (cacheSeconds : Nat) (exchange : Nat → String → ExchangeOutcome)
    (t : String) (now : Nat) (s0 : ProxyState) (sched : List Nat) : ConcState :=
  runSched cacheSeconds exchange ⟨s0, 0, [spawn t now, spawn t now]⟩ sched

/-- The oracle for the counterexample: upstream call number n returns the
id token T followed by the call number, with no rotation. -/
def ctrExchange : Nat → String → ExchangeOutcome :=
  fun n _ => ExchangeOutcome.success ⟨"T" ++ toString n, none⟩

/-- The starting state for the counterexample: an empty cache and a stored
refresh token for the tenant. -/
def ctrState : ProxyState :=
  ⟨[], [(buildSecretName "acme.vincere.io" SecretType.refreshToken, "R0")]⟩

/-- Counterexample to claim C1: two concurrent getIdTokenForTenant calls for
the same tenant, both arriving while the cache is stale, under the schedule
in which both run their first segment before either completes (exactly what
the event loop does when both requests arrive together, since each call
suspends at its secret read).  The run performs two upstream refresh calls,
not one, and the two callers receive different access credentials. -/
theorem concurrent_refresh_counterexample :
    totalCalls (twoCallerRun 50 ctrExchange "acme.vincere.io" 0 ctrState
      [0, 1, 0, 1, 0, 1, 0, 1]) = 2 ∧
    totalCalls (twoCallerRun 50 ctrExchange "acme.vincere.io" 0 ctrState
      [0, 1, 0, 1, 0, 1, 0, 1]) ≠ 1 ∧
    (twoCallerRun 50 ctrExchange "acme.vincere.io" 0 ctrState
      [0, 1, 0, 1, 0, 1, 0, 1]).tasks.map TaskState.result =
      [some (CallOutcome.ok "T0"), some (CallOutcome.ok "T1")] ∧
    ("T0" : String) ≠ "T1" := by
  refine ⟨by decide, by decide, by decide, by decide⟩

/-- Claim C1 as amended: getIdTokenForTenant has no per-tenant
serialization, so two concurrent calls that both observe the stale cache
each perform their own upstream refresh call - two upstream calls in total,
each caller receiving the credential minted by its own exchange; only when
the two calls are scheduled strictly one after the other does the pair
perform exactly one upstream call, the second caller being served the first
caller's credential from the cache. -/
theorem concurrent_refresh_not_single_flight
    (cacheSeconds now : Nat) (exchange : Nat → String → ExchangeOutcome)
    (t rt : String) (tok0 tok1 : TokenResponse) (s0 : ProxyState)
    (hcs : 0 < cacheSeconds)
    (hstale : cacheFresh s0 t now = none)
    (hsec : kvGet s0.secrets (buildSecretName t SecretType.refreshToken) = some rt)
    (hex0 : exchange 0 rt = ExchangeOutcome.success tok0)
    (hex1 : exchange 1 rt = ExchangeOutcome.success tok1) :
    totalCalls (twoCallerRun cacheSeconds exchange t now s0 [0, 1, 0, 1, 0, 1, 0, 1])
      = 2 ∧
    (twoCallerRun cacheSeconds exchange t now s0
        [0, 1, 0, 1, 0, 1, 0, 1]).tasks.map TaskState.result =
      [some (CallOutcome.ok tok0.idToken), some (CallOutcome.ok tok1.idToken)] ∧
    totalCalls (twoCallerRun cacheSeconds exchange t now s0 [0, 0, 0, 0, 1]) = 1 ∧
    (twoCallerRun cacheSeconds exchange t now s0 [0, 0, 0, 0, 1]).tasks.map
        TaskState.result =
      [some (CallOutcome.ok tok0.idToken), some (CallOutcome.ok tok0.idToken)] := by
  have hfresh2 : cacheFresh (refreshedState s0 t tok0 (now + cacheSeconds * 1000)) t now
      = some tok0.idToken := by
    unfold cacheFresh
    rw [refreshedState_cache, kvGet_kvSet_self]
    dsimp only
    rw [if_pos (Nat.lt_add_of_pos_right
      (Nat.mul_pos hcs (show (0 : Nat) < 1000 by norm_num)))]
  refine ⟨?_, ?_, ?_, ?_⟩ <;>
    simp [twoCallerRun, runSched, schedStep, spawn, stepTask, totalCalls,
      hstale, hsec, hex0, hex1, hfresh2]

/-- The oracle for the witness of the amended claim C1: the first upstream
call returns TA, every later one TB. -/
def ctr2Exchange : Nat → String → ExchangeOutcome :=
  fun n _ =>
    if n = 0 then ExchangeOutcome.success ⟨"TA", none⟩
    else ExchangeOutcome.success ⟨"TB", none⟩

/-- Witness for the amended claim C1 at a concrete tenant, store and
oracle. -/
theorem concurrent_refresh_not_single_flight_witness :
    totalCalls (twoCallerRun 50 ctr2Exchange "acme.vincere.io" 0 ctrState
      [0, 1, 0, 1, 0, 1, 0, 1]) = 2 ∧
    (twoCallerRun 50 ctr2Exchange "acme.vincere.io" 0 ctrState
        [0, 1, 0, 1, 0, 1, 0, 1]).tasks.map TaskState.result =
      [some (CallOutcome.ok "TA"), some (CallOutcome.ok "TB")] ∧
    totalCalls (twoCallerRun 50 ctr2Exchange "acme.vincere.io" 0 ctrState
      [0, 0, 0, 0, 1]) = 1 ∧
    (twoCallerRun 50 ctr2Exchange "acme.vincere.io" 0 ctrState
        [0, 0, 0, 0, 1]).tasks.map TaskState.result =
      [some (CallOutcome.ok "TA"), some (CallOutcome.ok "TA")] :=
  concurrent_refresh_not_single_flight 50 0 ctr2Exchange "acme.vincere.io" "R0"
    ⟨"TA", none⟩ ⟨"TB", none⟩ ctrState (by decide) (by decide) (by decide)
    (by decide) (by decide)

end VincereProxy
